import Mathlib

/-!
Shallow embedding of the rhythm-action gameplay core of the repository
(App.tsx, constants.ts, types.ts, components/GameScene.tsx,
components/Note.tsx / useMediaPipe hook, components/Saber.tsx).

Numeric values are modelled over the rationals; decimal literals of the
source (0.8, 1.5, 0.3, 0.6, 0.001, ...) are the corresponding exact
rationals.  Comparisons that the source performs on Euclidean norms
(THREE.Vector3.distanceTo, .length, .normalize) are embedded sqrt-free
through the squared-norm equivalences (for nonnegative a, b:
a < b iff a^2 < b^2), so every definition stays executable and decidable.
-/

/-- Three-component vector, the embedding of THREE.Vector3 values used by
the gameplay core. -/
structure Vec3 where
  x : ℚ
  y : ℚ
  z : ℚ
deriving DecidableEq

/-- Componentwise subtraction (THREE.Vector3.subVectors). -/
def Vec3.sub (a b : Vec3) : Vec3 := ⟨a.x - b.x, a.y - b.y, a.z - b.z⟩

/-- Scalar multiple; divideScalar t is modelled as smul (1/t). -/
def Vec3.smul (t : ℚ) (a : Vec3) : Vec3 := ⟨t * a.x, t * a.y, t * a.z⟩

/-- Dot product (THREE.Vector3.dot). -/
def Vec3.dot (a b : Vec3) : ℚ := a.x * b.x + a.y * b.y + a.z * b.z

/-- Squared Euclidean norm: length() squared. -/
def Vec3.normSq (a : Vec3) : ℚ := a.dot a

/-- Linear interpolation v1 + (v2 - v1) * t (THREE.Vector3.lerpVectors). -/
def Vec3.lerp (v1 v2 : Vec3) (t : ℚ) : Vec3 :=
  ⟨v1.x + (v2.x - v1.x) * t, v1.y + (v2.y - v1.y) * t, v1.z + (v2.z - v1.z) * t⟩

/-- Zero vector, the initial velocity value of the tracking state. -/
def Vec3.zero : Vec3 := ⟨0, 0, 0⟩

/-- Test for length() less than c, for a nonnegative bound c, via the
squared-norm equivalence. -/
def Vec3.normLt (v : Vec3) (c : ℚ) : Bool := decide (v.normSq < c ^ 2)

/-- Test for distanceTo less than c (nonnegative c), sqrt-free. -/
def Vec3.distLt (p q : Vec3) (c : ℚ) : Bool := (p.sub q).normLt c

/-- Test for (v.normalize).dot d less than c, for a nonnegative bound c,
following the THREE.js semantics normalize = divideScalar (length or 1),
so the zero vector normalizes to itself and the dot is 0.  For nonzero v,
(v.dot d) / norm v < c iff v.dot d < 0, or (v.dot d)^2 < c^2 * normSq v. -/
def Vec3.dotNormLt (v d : Vec3) (c : ℚ) : Bool :=
  if v.normSq = 0 then decide (0 < c)
  else decide (v.dot d < 0 ∨ (v.dot d) ^ 2 < c ^ 2 * v.normSq)

/-! Constants from constants.ts. -/

/-- SPAWN_Z from constants.ts. -/
def SPAWN_Z : ℚ := -30

/-- PLAYER_Z from constants.ts: the judgment plane depth. -/
def PLAYER_Z : ℚ := 0

/-- MISS_Z from constants.ts: depth beyond which a pending note is missed. -/
def MISS_Z : ℚ := 5

/-- NOTE_SPEED from constants.ts (approach speed, units per second). -/
def NOTE_SPEED : ℚ := 10

/-- LANE_WIDTH from constants.ts (0.8). -/
def LANE_WIDTH : ℚ := 4/5

/-- LANE_X_POSITIONS from constants.ts. -/
def LANE_X_POSITIONS : List ℚ :=
  [-(3/2) * LANE_WIDTH, -(1/2) * LANE_WIDTH, (1/2) * LANE_WIDTH, (3/2) * LANE_WIDTH]

/-- LAYER_Y_POSITIONS from constants.ts. -/
def LAYER_Y_POSITIONS : List ℚ := [4/5, 8/5, 12/5]

/-! Data model from types.ts. -/

/-- HandType from types.ts. -/
inductive HandType where
  | left
  | right
deriving DecidableEq

/-- CutDirection from types.ts. -/
inductive CutDirection where
  | up
  | down
  | left
  | right
  | any
deriving DecidableEq

/-- DIRECTION_VECTORS from constants.ts. -/
def DIRECTION_VECTORS : CutDirection → Vec3
  | CutDirection.up => ⟨0, 1, 0⟩
  | CutDirection.down => ⟨0, -1, 0⟩
  | CutDirection.left => ⟨-1, 0, 0⟩
  | CutDirection.right => ⟨1, 0, 0⟩
  | CutDirection.any => ⟨0, 0, 0⟩

/-- NoteData from types.ts.  The optional hit / missed flags default to
false (startGame resets them so before any judging they read false). -/
structure NoteData where
  id : String
  time : ℚ
  lineIndex : ℕ
  lineLayer : ℕ
  type : HandType
  cutDirection : CutDirection
  hit : Bool := false
  missed : Bool := false
  hitTime : Option ℚ := none
deriving DecidableEq

/-- HandPositions from types.ts: the snapshot the judge reads. -/
structure HandPositions where
  left : Option Vec3
  right : Option Vec3
  leftVelocity : Vec3
  rightVelocity : Vec3
deriving DecidableEq

/-! ScoreState machine from App.tsx (handleNoteHit / handleNoteMiss /
startGame reset). -/

/-- Score, combo, multiplier and health state held in App.tsx. -/
structure ScoreState where
  score : ℕ
  combo : ℕ
  multiplier : ℕ
  health : ℤ
deriving DecidableEq

/-- Multiplier recomputation from the combo, as in the setCombo updater of
handleNoteHit (App.tsx): newCombo > 30 gives 8, > 20 gives 4, > 10 gives
2, else 1. -/
def multOfCombo (c : ℕ) : ℕ :=
  if 30 < c then 8 else if 20 < c then 4 else if 10 < c then 2 else 1

/-- handleNoteHit from App.tsx.  points = 100 (+50 on a good cut); the
combo is incremented and the multiplier recomputed from the new combo; the
score gains points times the multiplier captured by the callback closure,
which is the multiplier value in effect before this event; health gains 2
clamped to 100. -/
def handleNoteHit (goodCut : Bool) (s : ScoreState) : ScoreState :=
  let points : ℕ := 100 + (if goodCut then 50 else 0)
  let newCombo := s.combo + 1
  { score := s.score + points * s.multiplier
    combo := newCombo
    multiplier := multOfCombo newCombo
    health := min 100 (s.health + 2) }

/-- handleNoteMiss from App.tsx: combo to 0, multiplier to 1, health loses
15 clamped below at 0 (reaching 0 additionally triggers endGame false). -/
def handleNoteMiss (s : ScoreState) : ScoreState :=
  { s with
    combo := 0
    multiplier := 1
    health := if s.health - 15 ≤ 0 then 0 else s.health - 15 }

/-- Judge events fed to the score state. -/
inductive ScoreEvent where
  | hit (goodCut : Bool)
  | missed
deriving DecidableEq

/-- Dispatch of a judge event to the App.tsx handlers. -/
def applyEvent (s : ScoreState) (e : ScoreEvent) : ScoreState :=
  match e with
  | ScoreEvent.hit g => handleNoteHit g s
  | ScoreEvent.missed => handleNoteMiss s

/-- State installed by the startGame reset in App.tsx. -/
def initialScoreState : ScoreState := ⟨0, 0, 1, 100⟩

/-! HitJudge: the per-note body of the GameScene useFrame loop
(components/GameScene.tsx, the Update and Collide Notes section). -/

/-- Judge events carrying the cut quality, the outcome stream of the
GameScene loop (onNoteHit note goodCut / onNoteMiss note). -/
inductive JudgeEvent where
  | hit (goodCut : Bool)
  | missed
deriving DecidableEq

/-- Current depth of a note: currentZ = PLAYER_Z - (note.time - time) * NOTE_SPEED. -/
def currentZ (note : NoteData) (time : ℚ) : ℚ :=
  PLAYER_Z - (note.time - time) * NOTE_SPEED

/-- World position of the note slot: lane x, layer y, current z. -/
def notePos (note : NoteData) (z : ℚ) : Vec3 :=
  ⟨LANE_X_POSITIONS.getD note.lineIndex 0, LAYER_Y_POSITIONS.getD note.lineLayer 0, z⟩

/-- Hand position assigned to the note's required hand. -/
def handFor (t : HandType) (hands : HandPositions) : Option Vec3 :=
  match t with
  | HandType.left => hands.left
  | HandType.right => hands.right

/-- Hand velocity assigned to the note's required hand. -/
def velFor (t : HandType) (hands : HandPositions) : Vec3 :=
  match t with
  | HandType.left => hands.leftVelocity
  | HandType.right => hands.rightVelocity

/-- Cut-quality gate of the GameScene loop: goodCut starts true; for a
directional note it is cleared when dot < 0.3 or speed < 1.5 (dot taken
between the normalized hand velocity and the required direction vector);
for CutDirection.any it is cleared when speed < 1.5. -/
def cutQuality (note : NoteData) (handVel : Vec3) : Bool :=
  if note.cutDirection = CutDirection.any then
    !(handVel.normLt (3/2))
  else
    !(handVel.dotNormLt (DIRECTION_VECTORS note.cutDirection) (3/10) || handVel.normLt (3/2))

/-- One iteration of the Update and Collide Notes loop for one note:
resolved notes are skipped; a note past MISS_Z is missed unconditionally;
inside the collision window (PLAYER_Z - 1.5, PLAYER_Z + 1.0), with the
required hand tracked and within distance 0.8 of the slot, the note is
hit with the gated quality; otherwise it is left unchanged.  The second
component is the emitted event; the source splices the note out of the
active list exactly when an event is emitted. -/
def judgeNote (time : ℚ) (hands : HandPositions) (note : NoteData) :
    NoteData × Option JudgeEvent :=
  if note.hit || note.missed then (note, none)
  else
    let z := currentZ note time
    if MISS_Z < z then
      ({ note with missed := true }, some JudgeEvent.missed)
    else if PLAYER_Z - 3/2 < z ∧ z < PLAYER_Z + 1 then
      match handFor note.type hands with
      | none => (note, none)
      | some handPos =>
        if handPos.distLt (notePos note z) (4/5) then
          ({ note with hit := true, hitTime := some time },
           some (JudgeEvent.hit (cutQuality note (velFor note.type hands))))
        else (note, none)
    else (note, none)

/-- The whole Update and Collide Notes pass over the active list.  The
source iterates indices from the end toward the front, splicing a note
out exactly when it resolves; per-note processing is independent, so the
pass keeps exactly the notes that emit no event (unchanged) and collects
the emitted events (in the source's back-to-front order). -/
def judgeTick (time : ℚ) (hands : HandPositions) :
    List NoteData → List NoteData × List (NoteData × JudgeEvent)
  | [] => ([], [])
  | note :: rest =>
    let tail := judgeTick time hands rest
    match judgeNote time hands note with
    | (note', none) => (note' :: tail.1, tail.2)
    | (note', some e) => (tail.1, (note', e) :: tail.2)

/-- Fold of the per-note judge over a sequence of ticks (time, hands),
tracking one note across a session and counting the emitted events. -/
def runJudge : List (ℚ × HandPositions) → NoteData → NoteData × ℕ
  | [], n => (n, 0)
  | (t, h) :: rest, n =>
    let step := judgeNote t h n
    let tail := runJudge rest step.1
    (tail.1, (if step.2.isSome then 1 else 0) + tail.2)

/-! ChartTimeline: the Spawn Notes loop of GameScene.tsx. -/

/-- spawnAheadTime = abs (SPAWN_Z - PLAYER_Z) / NOTE_SPEED. -/
def spawnAheadTime : ℚ := |SPAWN_Z - PLAYER_Z| / NOTE_SPEED

/-- The while loop of the Spawn Notes section viewed from the cursor: it
pushes notes from the front of the remaining chart as long as
note.time - spawnAheadTime <= time, stopping at the first note that is
not yet reachable.  Returns the list of notes admitted this tick. -/
def admitWhile (time : ℚ) : List NoteData → List NoteData
  | [] => []
  | n :: rest =>
    if n.time - spawnAheadTime ≤ time then n :: admitWhile time rest else []

/-! HandSignalConditioner: mapHandToWorld and processResults from the
useMediaPipe hook (components/Note.tsx unit). -/

/-- mapHandToWorld from the useMediaPipe hook: projects a normalized 2D
detection (x, y) to the 3D world.  GAME_X_RANGE = 5, GAME_Y_RANGE = 3.5,
Y_OFFSET = 0.8; worldZ = -max 0 (worldY * 0.2); the returned y is
clamped below at 0.1. -/
def mapHandToWorld (x y : ℚ) : Vec3 :=
  let GAME_X_RANGE : ℚ := 5
  let GAME_Y_RANGE : ℚ := 7/2
  let Y_OFFSET : ℚ := 4/5
  let worldX := (1/2 - x) * GAME_X_RANGE
  let worldY := (1 - y) * GAME_Y_RANGE - GAME_Y_RANGE / 2 + Y_OFFSET
  let worldZ := -max 0 (worldY * (1/5))
  ⟨worldX, max (1/10) worldY, worldZ⟩

/-- The mutable handPositionsRef state of the useMediaPipe hook.
Timestamps are in milliseconds (performance.now). -/
structure HandTrackState where
  left : Option Vec3
  right : Option Vec3
  lastLeft : Option Vec3
  lastRight : Option Vec3
  leftVelocity : Vec3
  rightVelocity : Vec3
  lastTimestamp : ℚ
deriving DecidableEq

/-- Initial handPositionsRef value. -/
def initialHandTrackState : HandTrackState :=
  ⟨none, none, none, none, Vec3.zero, Vec3.zero, 0⟩

/-- The per-hand update block of processResults, shared by left and right:
given the world position detected this cycle (if any), the previous
smoothed position slot, the previous last-position slot and the stored
velocity, produce the new (position, lastPosition, velocity).  With a
detection and a previous position, the new position is the 0.6-lerp
toward the new sample and the velocity is recomputed when
deltaTime > 0.001 seconds; with a detection but no previous position the
raw sample is stored and the velocity is left unchanged; with no
detection the position is cleared. -/
def updateHand (deltaTime : ℚ) (detected : Option Vec3)
    (prevPos lastPos : Option Vec3) (vel : Vec3) :
    Option Vec3 × Option Vec3 × Vec3 :=
  match detected with
  | some fresh =>
    match prevPos with
    | some prev =>
      let sm := Vec3.lerp prev fresh (3/5)
      let v := if 1/1000 < deltaTime then Vec3.smul (1 / deltaTime) (sm.sub prev) else vel
      (some sm, some prev, v)
    | none => (some fresh, some fresh, vel)
  | none => (none, lastPos, vel)

/-- processResults from the useMediaPipe hook, with the per-cycle landmark
scan abstracted to its outcome: the world positions newLeft / newRight
(present iff a landmark classified to that hand appeared this cycle,
last classification winning).  deltaTime = (now - lastTimestamp) / 1000
and lastTimestamp is unconditionally set to now. -/
def processResults (now : ℚ) (newLeft newRight : Option Vec3)
    (s : HandTrackState) : HandTrackState :=
  let deltaTime := (now - s.lastTimestamp) / 1000
  let l := updateHand deltaTime newLeft s.left s.lastLeft s.leftVelocity
  let r := updateHand deltaTime newRight s.right s.lastRight s.rightVelocity
  { left := l.1, lastLeft := l.2.1, leftVelocity := l.2.2
    right := r.1, lastRight := r.2.1, rightVelocity := r.2.2
    lastTimestamp := now }

/-- Fold of processResults over a sequence of detector cycles
(now, newLeft, newRight). -/
def runDetector : List (ℚ × Option Vec3 × Option Vec3) → HandTrackState → HandTrackState
  | [], s => s
  | (t, l, r) :: rest, s => runDetector rest (processResults t l r s)

/-! Helper lemmas about the score machine. -/

/-- Health bounds are preserved by a single judge event. -/
theorem applyEvent_health_bounds (e : ScoreEvent) (s : ScoreState)
    (h0 : 0 ≤ s.health) (h1 : s.health ≤ 100) :
    0 ≤ (applyEvent s e).health ∧ (applyEvent s e).health ≤ 100 := by
  cases e with
  | hit g => simp only [applyEvent, handleNoteHit]; omega
  | missed => simp only [applyEvent, handleNoteMiss]; split <;> omega

/-- Health bounds are preserved by any fold of judge events. -/
theorem foldl_health_bounds (evs : List ScoreEvent) (s : ScoreState)
    (h0 : 0 ≤ s.health) (h1 : s.health ≤ 100) :
    0 ≤ (evs.foldl applyEvent s).health ∧ (evs.foldl applyEvent s).health ≤ 100 := by
  induction evs generalizing s with
  | nil => exact ⟨h0, h1⟩
  | cons e rest ih =>
    have hb := applyEvent_health_bounds e s h0 h1
    simpa using ih (applyEvent s e) hb.1 hb.2

/-- C3 (confirmed): starting from the startGame reset (health = 100),
after any sequence of Hit and Missed judge events, health stays an
integer in the closed interval from 0 to 100: each Hit adds 2 clamped
above at 100 and each Missed subtracts 15 clamped below at 0. -/
theorem health_always_in_range (evs : List ScoreEvent) :
    0 ≤ (evs.foldl applyEvent initialScoreState).health ∧
      (evs.foldl applyEvent initialScoreState).health ≤ 100 ∧
      (∀ (g : Bool) (s : ScoreState),
        (handleNoteHit g s).health = min 100 (s.health + 2)) ∧
      (∀ s : ScoreState,
        (handleNoteMiss s).health = max 0 (s.health - 15)) := by
  refine ⟨(foldl_health_bounds evs initialScoreState (by decide) (by decide)).1,
          (foldl_health_bounds evs initialScoreState (by decide) (by decide)).2,
          fun g s => rfl, fun s => ?_⟩
  simp only [handleNoteMiss]
  split <;> omega

/-- C8 (confirmed): the multiplier is a pure monotone step function of the
combo with exact boundaries (1 up to combo 10, 2 from 11 to 20, 4 from 21
to 30, 8 from 31 on), and both App.tsx handlers leave the stored
multiplier equal to that function of the stored combo. -/
theorem multiplier_step_function :
    (∀ c : ℕ, c ≤ 10 → multOfCombo c = 1) ∧
    (∀ c : ℕ, 11 ≤ c → c ≤ 20 → multOfCombo c = 2) ∧
    (∀ c : ℕ, 21 ≤ c → c ≤ 30 → multOfCombo c = 4) ∧
    (∀ c : ℕ, 31 ≤ c → multOfCombo c = 8) ∧
    (∀ c d : ℕ, c ≤ d → multOfCombo c ≤ multOfCombo d) ∧
    (∀ (g : Bool) (s : ScoreState),
      (handleNoteHit g s).multiplier = multOfCombo (handleNoteHit g s).combo) ∧
    (∀ s : ScoreState,
      (handleNoteMiss s).multiplier = multOfCombo (handleNoteMiss s).combo) := by
  refine ⟨fun c hc => ?_, fun c hc1 hc2 => ?_, fun c hc1 hc2 => ?_, fun c hc => ?_,
          fun c d hcd => ?_, fun g s => rfl, fun s => rfl⟩ <;>
    simp only [multOfCombo] <;> split_ifs <;> omega

/-- Witness for C8 at concrete combo values. -/
theorem multiplier_step_function_boundaries :
    multOfCombo 0 = 1 ∧ multOfCombo 10 = 1 ∧ multOfCombo 11 = 2 ∧
      multOfCombo 20 = 2 ∧ multOfCombo 21 = 4 ∧ multOfCombo 30 = 4 ∧
      multOfCombo 31 = 8 ∧ multOfCombo 10 ≤ multOfCombo 31 :=
  ⟨multiplier_step_function.1 0 (by decide),
   multiplier_step_function.1 10 (by decide),
   multiplier_step_function.2.1 11 (by decide) (by decide),
   multiplier_step_function.2.1 20 (by decide) (by decide),
   multiplier_step_function.2.2.1 21 (by decide) (by decide),
   multiplier_step_function.2.2.1 30 (by decide) (by decide),
   multiplier_step_function.2.2.2.1 31 (by decide),
   multiplier_step_function.2.2.2.2.1 10 31 (by decide)⟩

/-- C9 (confirmed): a Missed event leaves the score unchanged (it touches
only combo, multiplier and health); a fold of Missed-only events leaves
the score unchanged; the startGame reset is the only other writer and
sets the score to 0. -/
theorem missed_leaves_score_unchanged :
    (∀ s : ScoreState, (handleNoteMiss s).score = s.score) ∧
    (∀ (evs : List ScoreEvent) (s : ScoreState),
      (∀ e ∈ evs, e = ScoreEvent.missed) →
      (evs.foldl applyEvent s).score = s.score) ∧
    initialScoreState.score = 0 := by
  refine ⟨fun s => rfl, fun evs => ?_, rfl⟩
  induction evs with
  | nil => intro s _; rfl
  | cons e rest ih =>
    intro s hall
    have he : e = ScoreEvent.missed := hall e (by simp)
    have hrest : ∀ x ∈ rest, x = ScoreEvent.missed := fun x hx => hall x (by simp [hx])
    subst he
    simpa using ih (applyEvent s ScoreEvent.missed) hrest

/-- Witness for C9: two Missed events leave a concrete score untouched. -/
theorem missed_leaves_score_unchanged_example :
    (([ScoreEvent.missed, ScoreEvent.missed].foldl applyEvent
      ⟨500, 3, 1, 80⟩).score : ℕ) = 500 :=
  missed_leaves_score_unchanged.2.1 [ScoreEvent.missed, ScoreEvent.missed]
    ⟨500, 3, 1, 80⟩ (by decide)

/-- C1 (counterexample): at combo 10 the eleventh good hit recomputes the
multiplier to 2 but adds only 150 = 150 * 1 to the score (the closure
multiplier in effect before the event), not 150 times the freshly
recomputed multiplier.  The state with combo 10 is reached from the
startGame reset by ten good hits. -/
theorem hit_scoring_counterexample :
    (List.replicate 10 (ScoreEvent.hit true)).foldl applyEvent initialScoreState
      = ⟨1500, 10, 1, 100⟩ ∧
    handleNoteHit true ⟨1500, 10, 1, 100⟩ = ⟨1650, 11, 2, 100⟩ ∧
    (1650 : ℕ) = 1500 + 150 * 1 ∧
    (handleNoteHit true ⟨1500, 10, 1, 100⟩).multiplier = 2 ∧
    (1500 : ℕ) + 150 * 1 ≠ 1500 + 150 * 2 := by
  decide

/-- C1 (corrected, amended): on every Hit event the combo is incremented
and the multiplier recomputed from the incremented combo via the fixed
thresholds, but the score gains (100, +50 if good) times the multiplier
in effect before the event; the recomputed multiplier only scales later
hits.  In the section-8 single-target scenario (lane 1, layer 0, left
hand, direction any, arrival 2.0, approach speed 10, judgment depth 0) a
left hand at the slot position with speed 2.0 at time 2.0 yields one
Hit with good quality, and the score gains exactly 150 times the current
(pre-event) multiplier. -/
theorem hit_scoring_amended :
    (∀ (g : Bool) (s : ScoreState),
      (handleNoteHit g s).combo = s.combo + 1 ∧
      (handleNoteHit g s).multiplier = multOfCombo (s.combo + 1) ∧
      (handleNoteHit g s).score
        = s.score + (100 + if g then 50 else 0) * s.multiplier) ∧
    judgeNote 2
      ⟨some ⟨-2/5, 4/5, 0⟩, none, ⟨2, 0, 0⟩, Vec3.zero⟩
      ⟨"demo", 2, 1, 0, HandType.left, CutDirection.any, false, false, none⟩
      = (⟨"demo", 2, 1, 0, HandType.left, CutDirection.any, true, false, some 2⟩,
         some (JudgeEvent.hit true)) ∧
    (∀ s : ScoreState, (handleNoteHit true s).score = s.score + 150 * s.multiplier) := by
  refine ⟨fun g s => ⟨rfl, rfl, rfl⟩, ?_, fun s => rfl⟩
  norm_num [judgeNote, currentZ, handFor, notePos, cutQuality, velFor,
    Vec3.distLt, Vec3.normLt, Vec3.normSq, Vec3.sub, Vec3.dot,
    PLAYER_Z, MISS_Z, NOTE_SPEED, LANE_X_POSITIONS, LAYER_Y_POSITIONS, LANE_WIDTH]

/-- C10 (confirmed): the hand-to-world projection always returns a point
with y at least 0.1 (clamped from below) and z at most 0, the z being the
negated positive part of 0.2 times the unclamped world y. -/
theorem mapHandToWorld_bounds (x y : ℚ) :
    (1/10 : ℚ) ≤ (mapHandToWorld x y).y ∧
    (mapHandToWorld x y).z ≤ 0 ∧
    (mapHandToWorld x y).z
      = -max 0 (((1 - y) * (7/2) - (7/2) / 2 + 4/5) * (1/5)) := by
  refine ⟨le_max_left _ _, ?_, rfl⟩
  exact neg_nonpos.mpr (le_max_left 0 _)

/-- C2 (counterexample): a left hand sampled at times 0 ms and 100 ms has
stored velocity (6, 0, 0); after an untracked gap at 200, 300 and 400 ms,
the re-detection at 500 ms stores the raw sample and leaves the velocity
at (6, 0, 0) — no recomputation happens at the re-detection, whereas the
claim demands one recomputation with divisor 0.4 s (the elapsed time
since the 100 ms sample), which would give (3.5, 0, 0). -/
theorem velocity_gap_counterexample :
    (runDetector [(0, some ⟨0, 0, 0⟩, none), (100, some ⟨1, 0, 0⟩, none)]
      initialHandTrackState).leftVelocity = ⟨6, 0, 0⟩ ∧
    (runDetector [(0, some ⟨0, 0, 0⟩, none), (100, some ⟨1, 0, 0⟩, none),
        (200, none, none), (300, none, none), (400, none, none),
        (500, some ⟨2, 0, 0⟩, none)]
      initialHandTrackState).leftVelocity = ⟨6, 0, 0⟩ ∧
    (runDetector [(0, some ⟨0, 0, 0⟩, none), (100, some ⟨1, 0, 0⟩, none),
        (200, none, none), (300, none, none), (400, none, none),
        (500, some ⟨2, 0, 0⟩, none)]
      initialHandTrackState).left = some ⟨2, 0, 0⟩ ∧
    Vec3.smul (1 / ((500 - 100) / 1000)) (Vec3.sub ⟨2, 0, 0⟩ ⟨3/5, 0, 0⟩)
      = ⟨7/2, 0, 0⟩ ∧
    (⟨6, 0, 0⟩ : Vec3) ≠ ⟨7/2, 0, 0⟩ := by
  norm_num [runDetector, processResults, updateHand, initialHandTrackState,
    Vec3.lerp, Vec3.sub, Vec3.smul, Vec3.zero, Vec3.mk.injEq]

/-- C2 (corrected, amended): after an untracked gap the re-detection
stores the raw sample and performs no velocity computation at all (the
velocity is left unchanged, since the previous smoothed position was
discarded); while a hand stays untracked its velocity is also unchanged;
velocity is recomputed only when the hand was tracked in the immediately
preceding cycle, as (newSmoothedPos - previousSmoothedPos) / deltaTime,
where deltaTime is the elapsed time since the previous detector cycle
(the shared lastTimestamp, unconditionally updated every cycle), and the
velocity is left unchanged when deltaTime is at most 1 ms. -/
theorem velocity_gap_amended :
    (∀ (now : ℚ) (p : Vec3) (r : Option Vec3) (s : HandTrackState),
      s.left = none →
      (processResults now (some p) r s).leftVelocity = s.leftVelocity ∧
      (processResults now (some p) r s).left = some p) ∧
    (∀ (now : ℚ) (r : Option Vec3) (s : HandTrackState),
      (processResults now none r s).leftVelocity = s.leftVelocity ∧
      (processResults now none r s).left = none) ∧
    (∀ (now : ℚ) (p prev : Vec3) (r : Option Vec3) (s : HandTrackState),
      s.left = some prev →
      (1/1000 < (now - s.lastTimestamp) / 1000 →
        (processResults now (some p) r s).leftVelocity
          = Vec3.smul (1 / ((now - s.lastTimestamp) / 1000))
              ((Vec3.lerp prev p (3/5)).sub prev)) ∧
      ((now - s.lastTimestamp) / 1000 ≤ 1/1000 →
        (processResults now (some p) r s).leftVelocity = s.leftVelocity)) ∧
    (∀ (now : ℚ) (l r : Option Vec3) (s : HandTrackState),
      (processResults now l r s).lastTimestamp = now) := by
  refine ⟨fun now p r s h => ?_, fun now r s => ?_, fun now p prev r s h => ?_,
          fun now l r s => rfl⟩
  · simp [processResults, updateHand, h]
  · simp [processResults, updateHand]
  · constructor
    · intro hdt
      simp only [processResults, updateHand, h]
      rw [if_pos hdt]
    · intro hdt
      simp only [processResults, updateHand, h]
      rw [if_neg (not_lt.mpr hdt)]

/-- Witness for C2's amended statement: with the previous smoothed
position discarded by a gap, a re-detection at 500 ms leaves a stored
velocity of (6, 0, 0) untouched. -/
theorem velocity_gap_amended_example :
    (processResults 500 (some ⟨2, 0, 0⟩) none
      ⟨none, none, some ⟨0, 0, 0⟩, none, ⟨6, 0, 0⟩, Vec3.zero, 400⟩).leftVelocity
      = ⟨6, 0, 0⟩ :=
  (velocity_gap_amended.1 500 ⟨2, 0, 0⟩ none
    ⟨none, none, some ⟨0, 0, 0⟩, none, ⟨6, 0, 0⟩, Vec3.zero, 400⟩ rfl).1

/-! Helper lemmas about the judge. -/

/-- A resolved note is skipped by the judge loop body. -/
theorem judgeNote_resolved (t : ℚ) (h : HandPositions) (n : NoteData)
    (hr : n.hit = true ∨ n.missed = true) : judgeNote t h n = (n, none) := by
  rcases hr with h1 | h1 <;> simp [judgeNote, h1]

/-- The judge loop body either leaves a note unchanged with no event, or
marks it missed, or marks it hit with the gated quality. -/
theorem judgeNote_cases (t : ℚ) (h : HandPositions) (n : NoteData) :
    judgeNote t h n = (n, none) ∨
    (n.hit = false ∧ n.missed = false ∧
      judgeNote t h n = ({ n with missed := true }, some JudgeEvent.missed)) ∨
    (n.hit = false ∧ n.missed = false ∧
      judgeNote t h n
        = ({ n with hit := true, hitTime := some t },
           some (JudgeEvent.hit (cutQuality n (velFor n.type h))))) := by
  cases hhit : n.hit with
  | true => exact Or.inl (judgeNote_resolved t h n (Or.inl hhit))
  | false =>
  cases hmiss : n.missed with
  | true => exact Or.inl (judgeNote_resolved t h n (Or.inr hmiss))
  | false =>
  simp only [judgeNote]
  rw [if_neg (by simp [hhit, hmiss])]
  by_cases hz : MISS_Z < currentZ n t
  · refine Or.inr (Or.inl ⟨trivial, trivial, ?_⟩)
    rw [if_pos hz, hhit]
  · rw [if_neg hz]
    by_cases hw : PLAYER_Z - 3/2 < currentZ n t ∧ currentZ n t < PLAYER_Z + 1
    · rw [if_pos hw]
      cases hf : handFor n.type h with
      | none => exact Or.inl rfl
      | some hp =>
        dsimp only
        by_cases hd : hp.distLt (notePos n (currentZ n t)) (4/5) = true
        · refine Or.inr (Or.inr ⟨trivial, trivial, ?_⟩)
          rw [if_pos hd, hmiss]
        · rw [if_neg hd]
          exact Or.inl rfl
    · rw [if_neg hw]
      exact Or.inl rfl

/-- When the judge emits no event it also leaves the note unchanged. -/
theorem judgeNote_none_eq (t : ℚ) (h : HandPositions) (n : NoteData)
    (he : (judgeNote t h n).2 = none) : (judgeNote t h n).1 = n := by
  rcases judgeNote_cases t h n with hc | ⟨_, _, hc⟩ | ⟨_, _, hc⟩ <;>
    rw [hc] <;> rw [hc] at he <;> simp_all

/-- The Update and Collide pass keeps exactly the notes that emit no
event, unchanged and in order: immediate retirement on any outcome. -/
theorem judgeTick_eq_filter (t : ℚ) (h : HandPositions) (l : List NoteData) :
    (judgeTick t h l).1 = l.filter (fun m => ((judgeNote t h m).2).isNone) := by
  induction l with
  | nil => rfl
  | cons a rest ih =>
    rcases he : judgeNote t h a with ⟨a', ev⟩
    cases ev with
    | none =>
      have ha : a' = a := by
        have := judgeNote_none_eq t h a (by rw [he])
        rw [he] at this
        exact this
      simp only [judgeTick, he, List.filter_cons]
      rw [ha]
      simp [he, ih]
    | some e =>
      simp only [judgeTick, he, List.filter_cons]
      simp [he, ih]

/-- A resolved note is never touched again over any sequence of ticks. -/
theorem runJudge_resolved (ticks : List (ℚ × HandPositions)) (n : NoteData)
    (hr : n.hit = true ∨ n.missed = true) : runJudge ticks n = (n, 0) := by
  induction ticks with
  | nil => rfl
  | cons th rest ih =>
    obtain ⟨t, h⟩ := th
    simp [runJudge, judgeNote_resolved t h n hr, ih]

/-- Core single-note invariant: starting pending, over any tick sequence
at most one event is emitted and the flags never read both true; with no
event the note is unchanged. -/
theorem runJudge_pending (ticks : List (ℚ × HandPositions)) (n : NoteData)
    (hh : n.hit = false) (hm : n.missed = false) :
    (runJudge ticks n).2 ≤ 1 ∧
    ¬((runJudge ticks n).1.hit = true ∧ (runJudge ticks n).1.missed = true) ∧
    ((runJudge ticks n).2 = 0 → (runJudge ticks n).1 = n) := by
  induction ticks generalizing n with
  | nil => exact ⟨Nat.zero_le 1, by simp [runJudge, hh], fun _ => rfl⟩
  | cons th rest ih =>
    obtain ⟨t, h⟩ := th
    rcases judgeNote_cases t h n with hc | ⟨_, _, hc⟩ | ⟨_, _, hc⟩
    · have hi := ih n hh hm
      simp only [runJudge, hc]
      simpa using hi
    · have hres := runJudge_resolved rest { n with missed := true } (Or.inr rfl)
      simp only [runJudge, hc, hres]
      refine ⟨by simp, by simp [hh], by simp⟩
    · have hres := runJudge_resolved rest
        { n with hit := true, hitTime := some t } (Or.inl rfl)
      simp only [runJudge, hc, hres]
      refine ⟨by simp, by simp [hm], by simp⟩

/-- C4 (confirmed): within a session, a pending Target resolves at most
once over any sequence of judge ticks: at most one event is ever emitted
for it, its flags never read both hit and missed, it stays pending
exactly when no event fired, and a resolved Target is never re-evaluated
(the judge leaves it unchanged and emits nothing for it ever after). -/
theorem target_resolves_at_most_once (ticks : List (ℚ × HandPositions)) (n : NoteData)
    (hh : n.hit = false) (hm : n.missed = false) :
    (runJudge ticks n).2 ≤ 1 ∧
    ¬((runJudge ticks n).1.hit = true ∧ (runJudge ticks n).1.missed = true) ∧
    ((runJudge ticks n).2 = 0 → (runJudge ticks n).1 = n) ∧
    (∀ (more : List (ℚ × HandPositions)) (m : NoteData),
      m.hit = true ∨ m.missed = true → runJudge more m = (m, 0)) := by
  have hp := runJudge_pending ticks n hh hm
  exact ⟨hp.1, hp.2.1, hp.2.2, fun more m hr => runJudge_resolved more m hr⟩

/-- Witness for C4 at a concrete tick sequence and pending note. -/
theorem target_resolves_at_most_once_example :
    (runJudge [(2, ⟨some ⟨-2/5, 4/5, 0⟩, none, ⟨2, 0, 0⟩, Vec3.zero⟩)]
        ⟨"demo", 2, 1, 0, HandType.left, CutDirection.any, false, false, none⟩).2 ≤ 1 ∧
    ¬((runJudge [(2, ⟨some ⟨-2/5, 4/5, 0⟩, none, ⟨2, 0, 0⟩, Vec3.zero⟩)]
        ⟨"demo", 2, 1, 0, HandType.left, CutDirection.any, false, false, none⟩).1.hit = true ∧
      (runJudge [(2, ⟨some ⟨-2/5, 4/5, 0⟩, none, ⟨2, 0, 0⟩, Vec3.zero⟩)]
        ⟨"demo", 2, 1, 0, HandType.left, CutDirection.any, false, false, none⟩).1.missed = true) ∧
    ((runJudge [(2, ⟨some ⟨-2/5, 4/5, 0⟩, none, ⟨2, 0, 0⟩, Vec3.zero⟩)]
        ⟨"demo", 2, 1, 0, HandType.left, CutDirection.any, false, false, none⟩).2 = 0 →
      (runJudge [(2, ⟨some ⟨-2/5, 4/5, 0⟩, none, ⟨2, 0, 0⟩, Vec3.zero⟩)]
        ⟨"demo", 2, 1, 0, HandType.left, CutDirection.any, false, false, none⟩).1
        = ⟨"demo", 2, 1, 0, HandType.left, CutDirection.any, false, false, none⟩) ∧
    (∀ (more : List (ℚ × HandPositions)) (m : NoteData),
      m.hit = true ∨ m.missed = true → runJudge more m = (m, 0)) :=
  target_resolves_at_most_once
    [(2, ⟨some ⟨-2/5, 4/5, 0⟩, none, ⟨2, 0, 0⟩, Vec3.zero⟩)]
    ⟨"demo", 2, 1, 0, HandType.left, CutDirection.any, false, false, none⟩ rfl rfl

/-- C5 (confirmed): a distance-hit on a pending directional target inside
the collision window is always emitted as a Hit whose quality is the
gated cut quality — never as a miss — and the quality is good exactly
when the normalized-velocity dot with the required direction is at least
0.3 and the speed is at least 1.5 (both encoded sqrt-free). -/
theorem directional_quality_gate (t : ℚ) (hands : HandPositions) (n : NoteData) (hp : Vec3)
    (hh : n.hit = false) (hm : n.missed = false)
    (hdir : n.cutDirection ≠ CutDirection.any)
    (hw : PLAYER_Z - 3/2 < currentZ n t ∧ currentZ n t < PLAYER_Z + 1)
    (hhand : handFor n.type hands = some hp)
    (hdist : hp.distLt (notePos n (currentZ n t)) (4/5) = true) :
    judgeNote t hands n
      = ({ n with hit := true, hitTime := some t },
         some (JudgeEvent.hit (cutQuality n (velFor n.type hands)))) ∧
    (cutQuality n (velFor n.type hands) = true ↔
      (velFor n.type hands).dotNormLt (DIRECTION_VECTORS n.cutDirection) (3/10) = false ∧
      (velFor n.type hands).normLt (3/2) = false) := by
  have hz : ¬ MISS_Z < currentZ n t := by
    have h2 := hw.2
    simp only [MISS_Z, PLAYER_Z] at *
    linarith
  constructor
  · simp only [judgeNote]
    rw [if_neg (by simp [hh, hm]), if_neg hz, if_pos hw, hhand]
    dsimp only
    rw [if_pos hdist]
  · simp only [cutQuality, if_neg hdir]
    cases hdot : (velFor n.type hands).dotNormLt (DIRECTION_VECTORS n.cutDirection) (3/10) <;>
      cases hspd : (velFor n.type hands).normLt (3/2) <;> simp

/-- Witness for C5: a directional (up) target cut with an upward hand at
speed 2 at the slot position. -/
theorem directional_quality_gate_example :
    judgeNote 2 ⟨some ⟨-2/5, 4/5, 0⟩, none, ⟨0, 2, 0⟩, Vec3.zero⟩
      ⟨"dir", 2, 1, 0, HandType.left, CutDirection.up, false, false, none⟩
      = (⟨"dir", 2, 1, 0, HandType.left, CutDirection.up, true, false, some 2⟩,
         some (JudgeEvent.hit (cutQuality
           ⟨"dir", 2, 1, 0, HandType.left, CutDirection.up, false, false, none⟩ ⟨0, 2, 0⟩))) ∧
    (cutQuality ⟨"dir", 2, 1, 0, HandType.left, CutDirection.up, false, false, none⟩ ⟨0, 2, 0⟩ = true ↔
      Vec3.dotNormLt ⟨0, 2, 0⟩ (DIRECTION_VECTORS CutDirection.up) (3/10) = false ∧
      Vec3.normLt ⟨0, 2, 0⟩ (3/2) = false) :=
  directional_quality_gate 2 ⟨some ⟨-2/5, 4/5, 0⟩, none, ⟨0, 2, 0⟩, Vec3.zero⟩
    ⟨"dir", 2, 1, 0, HandType.left, CutDirection.up, false, false, none⟩ ⟨-2/5, 4/5, 0⟩
    rfl rfl (by decide)
    (by constructor <;>
      norm_num [currentZ, PLAYER_Z, NOTE_SPEED])
    rfl
    (by norm_num [Vec3.distLt, Vec3.normLt, Vec3.normSq, Vec3.sub, Vec3.dot,
      notePos, currentZ, PLAYER_Z, NOTE_SPEED, LANE_X_POSITIONS, LAYER_Y_POSITIONS, LANE_WIDTH])

/-- C6 (confirmed): a pending target whose current depth exceeds MISS_Z is
missed unconditionally — for every hand state — and the tick pass retires
it from the active list immediately. -/
theorem late_target_missed (t : ℚ) (hands : HandPositions) (n : NoteData)
    (hh : n.hit = false) (hm : n.missed = false)
    (hz : MISS_Z < currentZ n t) :
    judgeNote t hands n = ({ n with missed := true }, some JudgeEvent.missed) ∧
    (∀ active : List NoteData, n ∉ (judgeTick t hands active).1) := by
  have h1 : judgeNote t hands n = ({ n with missed := true }, some JudgeEvent.missed) := by
    simp only [judgeNote]
    rw [if_neg (by simp [hh, hm]), if_pos hz]
  refine ⟨h1, fun active hmem => ?_⟩
  rw [judgeTick_eq_filter] at hmem
  rcases List.mem_filter.mp hmem with ⟨_, hev⟩
  rw [h1] at hev
  simp at hev

/-- On a chart segment sorted by arrival time, the spawn while-loop
admits exactly the reachable prefix, which coincides with the set of all
reachable notes in the segment. -/
theorem admitWhile_eq_filter (time : ℚ) (l : List NoteData)
    (hs : List.Pairwise (fun a b : NoteData => a.time ≤ b.time) l) :
    admitWhile time l
      = l.filter (fun n => decide (n.time - spawnAheadTime ≤ time)) := by
  induction l with
  | nil => rfl
  | cons a rest ih =>
    rcases List.pairwise_cons.mp hs with ⟨ha, hrest⟩
    by_cases hc : a.time - spawnAheadTime ≤ time
    · simp only [admitWhile, if_pos hc, List.filter_cons]
      rw [ih hrest]
      simp [hc]
    · simp only [admitWhile, if_neg hc, List.filter_cons]
      have h1 : ∀ b ∈ rest, ¬ decide (b.time - spawnAheadTime ≤ time) = true := by
        intro b hb
        have hab := ha b hb
        simp only [decide_eq_true_eq]
        intro hble
        exact hc (by linarith)
      simp only [List.filter_eq_nil_iff.mpr h1]
      simp [hc]

/-- C7 (confirmed): on a chart sorted by ascending arrival time, a spawn
pass starting at the cursor admits, in order and exactly once each,
precisely the not-yet-admitted targets with now at least
arrivalTime - lookahead; the lookahead is
abs (SPAWN_Z - PLAYER_Z) / NOTE_SPEED = 3 seconds, and the cursor only
ever advances. -/
theorem spawn_admission (time : ℚ) (chart : List NoteData) (idx : ℕ)
    (hs : List.Pairwise (fun a b : NoteData => a.time ≤ b.time) chart) :
    admitWhile time (chart.drop idx)
      = (chart.drop idx).filter (fun n => decide (n.time - spawnAheadTime ≤ time)) ∧
    spawnAheadTime = 3 ∧
    idx ≤ idx + (admitWhile time (chart.drop idx)).length := by
  refine ⟨admitWhile_eq_filter time _ (hs.sublist (List.drop_sublist idx chart)), ?_,
    Nat.le_add_right _ _⟩
  rw [spawnAheadTime, SPAWN_Z, PLAYER_Z, NOTE_SPEED,
    show ((-30 : ℚ) - 0) = -30 by norm_num, abs_neg,
    abs_of_nonneg (by norm_num : (0:ℚ) ≤ 30)]
  norm_num

/-- Witness for C7 on a concrete two-note sorted chart at time 0: the
note arriving at 2 is within the 3-second lookahead, the note arriving
at 60 is not. -/
theorem spawn_admission_example :
    admitWhile 0 (List.drop 0
        [(⟨"n0", 2, 1, 0, HandType.left, CutDirection.any, false, false, none⟩ : NoteData),
         ⟨"n1", 60, 2, 0, HandType.right, CutDirection.any, false, false, none⟩])
      = (List.drop 0
          [(⟨"n0", 2, 1, 0, HandType.left, CutDirection.any, false, false, none⟩ : NoteData),
           ⟨"n1", 60, 2, 0, HandType.right, CutDirection.any, false, false, none⟩]).filter
          (fun n => decide (n.time - spawnAheadTime ≤ 0)) ∧
    spawnAheadTime = 3 ∧
    0 ≤ 0 + (admitWhile 0 (List.drop 0
        [(⟨"n0", 2, 1, 0, HandType.left, CutDirection.any, false, false, none⟩ : NoteData),
         ⟨"n1", 60, 2, 0, HandType.right, CutDirection.any, false, false, none⟩])).length :=
  spawn_admission 0
    [⟨"n0", 2, 1, 0, HandType.left, CutDirection.any, false, false, none⟩,
     ⟨"n1", 60, 2, 0, HandType.right, CutDirection.any, false, false, none⟩] 0
    (by norm_num [List.pairwise_cons])

/-- Witness for C6: a note due at time 0 judged at time 1 sits at depth
10, beyond MISS_Z, and is missed even though a fast hand is tracked. -/
theorem late_target_missed_example :
    judgeNote 1 ⟨some ⟨-2/5, 4/5, 10⟩, none, ⟨5, 0, 0⟩, Vec3.zero⟩
      ⟨"late", 0, 1, 0, HandType.left, CutDirection.any, false, false, none⟩
      = ({ (⟨"late", 0, 1, 0, HandType.left, CutDirection.any, false, false, none⟩ : NoteData)
            with missed := true }, some JudgeEvent.missed) ∧
    (∀ active : List NoteData,
      (⟨"late", 0, 1, 0, HandType.left, CutDirection.any, false, false, none⟩ : NoteData)
        ∉ (judgeTick 1 ⟨some ⟨-2/5, 4/5, 10⟩, none, ⟨5, 0, 0⟩, Vec3.zero⟩ active).1) :=
  late_target_missed 1 ⟨some ⟨-2/5, 4/5, 10⟩, none, ⟨5, 0, 0⟩, Vec3.zero⟩
    ⟨"late", 0, 1, 0, HandType.left, CutDirection.any, false, false, none⟩
    rfl rfl (by norm_num [currentZ, MISS_Z, PLAYER_Z, NOTE_SPEED])
